import Mathlib

/-!
Verification of the Mergington High School activities API (`src/app.py`).

The application stores activities in a MongoDB collection keyed by `_id`
(the activity name).  We embed the collection as a list of `Activity`
records, in insertion order; `find_one` and `update_one` act on the first
document whose `_id` matches, exactly as MongoDB does for a filter on a
unique key.  `$addToSet` and `$pull` are embedded by `addToSet` and `pull`.
Raising `HTTPException(status_code, detail)` leaves the database untouched
and produces an error response, so each endpoint is embedded as a function
returning the HTTP response together with the (possibly updated) store.
A plain `return {...}` from a FastAPI handler is an HTTP 200 response.
-/

/-- One document of the `activities` collection: the `_id` (activity name)
together with the four data fields. -/
structure Activity where
  name : String
  description : String
  schedule : String
  max_participants : Nat
  participants : List String
deriving DecidableEq, Repr

/-- The state of the `activities` collection, in insertion order. -/
abbrev Store := List Activity

/-- Embeds `activities_collection.find_one({"_id": activity_name})`: the first
document whose `_id` equals `activity_name`. -/
def find_one (store : Store) (activity_name : String) : Option Activity :=
  store.find? (fun a => a.name == activity_name)

/-- MongoDB `$addToSet`: append the value unless it is already present. -/
def addToSet (l : List String) (email : String) : List String :=
  if email ∈ l then l else l ++ [email]

/-- MongoDB `$pull`: remove every occurrence of the value. -/
def pull (l : List String) (email : String) : List String :=
  l.filter (fun x => x != email)

/-- Embeds `activities_collection.update_one({"_id": activity_name}, ...)`: apply
the update to the first document whose `_id` matches, if any. -/
def update_one (store : Store) (activity_name : String)
    (f : Activity → Activity) : Store :=
  match store with
  | [] => []
  | a :: rest =>
    if a.name == activity_name then f a :: rest
    else a :: update_one rest activity_name f

/-- An HTTP response: either a 200 body message or an
`HTTPException(status_code, detail)`. -/
inductive ApiResponse where
  | ok (message : String)
  | httpError (status_code : Nat) (detail : String)
deriving DecidableEq, Repr

/-- Embeds `POST /activities/{activity_name}/signup?email=...`
(`signup_for_activity` in `app.py`). -/
def signup_for_activity (store : Store) (activity_name email : String) :
    ApiResponse × Store :=
  match find_one store activity_name with
  | none => (.httpError 404 "Activity not found", store)
  | some activity =>
    if email ∈ activity.participants then
      (.httpError 400 "Already signed up for this activity", store)
    else if activity.participants.length ≥ activity.max_participants then
      (.httpError 400 "Activity is full", store)
    else
      (.ok s!"Signed up {email} for {activity_name}",
       update_one store activity_name
         (fun a => { a with participants := addToSet a.participants email }))

/-- Embeds `DELETE /activities/{activity_name}/unregister?email=...`
(`unregister_from_activity` in `app.py`). -/
def unregister_from_activity (store : Store) (activity_name email : String) :
    ApiResponse × Store :=
  match find_one store activity_name with
  | none => (.httpError 404 "Activity not found", store)
  | some activity =>
    if email ∉ activity.participants then
      (.httpError 400 "Student not registered for this activity", store)
    else
      (.ok s!"Unregistered {email} from {activity_name}",
       update_one store activity_name
         (fun a => { a with participants := pull a.participants email }))

/-- The value stored for one key of the dictionary returned by
`GET /activities`: the document minus its `_id`. -/
structure ActivityData where
  description : String
  schedule : String
  max_participants : Nat
  participants : List String
deriving DecidableEq, Repr

/-- The response-format value built for one document in `get_activities`. -/
def activityData (a : Activity) : ActivityData :=
  { description := a.description
    schedule := a.schedule
    max_participants := a.max_participants
    participants := a.participants }

/-- Python dictionary assignment `d[k] = v`: overwrite the entry for `k`
in place if present, otherwise append it. -/
def dictInsert : List (String × ActivityData) → String → ActivityData →
    List (String × ActivityData)
  | [], k, v => [(k, v)]
  | (k', v') :: rest, k, v =>
    if k' == k then (k, v) :: rest else (k', v') :: dictInsert rest k v

/-- Embeds `GET /activities` (`get_activities` in `app.py`): iterate over the
cursor and build the name-keyed dictionary of response values. -/
def get_activities (store : Store) : List (String × ActivityData) :=
  store.foldl (fun d activity => dictInsert d activity.name (activityData activity)) []

/-- The first hardcoded activity of `app.py`. -/
def chess_club : Activity :=
  { name := "Chess Club"
    description := "Learn strategies and compete in chess tournaments"
    schedule := "Fridays, 3:30 PM - 5:00 PM"
    max_participants := 12
    participants := ["michael@mergington.edu", "daniel@mergington.edu"] }

/-- The second hardcoded activity of `app.py`. -/
def programming_class : Activity :=
  { name := "Programming Class"
    description := "Learn programming fundamentals and build software projects"
    schedule := "Tuesdays and Thursdays, 3:30 PM - 4:30 PM"
    max_participants := 20
    participants := ["emma@mergington.edu", "sophia@mergington.edu"] }

/-- The third hardcoded activity of `app.py`. -/
def gym_class : Activity :=
  { name := "Gym Class"
    description := "Physical education and sports activities"
    schedule := "Mondays, Wednesdays, Fridays, 2:00 PM - 3:00 PM"
    max_participants := 30
    participants := ["john@mergington.edu", "olivia@mergington.edu"] }

/-- The fourth hardcoded activity of `app.py`. -/
def soccer_team : Activity :=
  { name := "Soccer Team"
    description := "Join the school soccer team and compete in local leagues"
    schedule := "Tuesdays and Thursdays, 4:00 PM - 5:30 PM"
    max_participants := 18
    participants := ["lucas@mergington.edu", "mia@mergington.edu"] }

/-- The fifth hardcoded activity of `app.py`. -/
def basketball_club : Activity :=
  { name := "Basketball Club"
    description := "Practice basketball skills and play friendly matches"
    schedule := "Wednesdays, 3:30 PM - 5:00 PM"
    max_participants := 15
    participants := ["liam@mergington.edu", "ava@mergington.edu"] }

/-- The sixth hardcoded activity of `app.py`. -/
def art_club : Activity :=
  { name := "Art Club"
    description := "Explore painting, drawing, and other visual arts"
    schedule := "Mondays, 3:30 PM - 5:00 PM"
    max_participants := 16
    participants := ["noah@mergington.edu", "isabella@mergington.edu"] }

/-- The seventh hardcoded activity of `app.py`. -/
def drama_society : Activity :=
  { name := "Drama Society"
    description := "Participate in acting, stage production, and school plays"
    schedule := "Thursdays, 4:00 PM - 5:30 PM"
    max_participants := 20
    participants := ["ethan@mergington.edu", "charlotte@mergington.edu"] }

/-- The eighth hardcoded activity of `app.py`. -/
def math_olympiad : Activity :=
  { name := "Math Olympiad"
    description := "Prepare for math competitions and solve challenging problems"
    schedule := "Fridays, 2:00 PM - 3:30 PM"
    max_participants := 10
    participants := ["amelia@mergington.edu", "benjamin@mergington.edu"] }

/-- The ninth hardcoded activity of `app.py`. -/
def science_club : Activity :=
  { name := "Science Club"
    description := "Conduct experiments and explore scientific concepts"
    schedule := "Wednesdays, 4:00 PM - 5:00 PM"
    max_participants := 14
    participants := ["elijah@mergington.edu", "harper@mergington.edu"] }

/-- The list `initial_activities` of `app.py`, in source order. -/
def initial_activities : Store :=
  [chess_club, programming_class, gym_class, soccer_team, basketball_club,
   art_club, drama_society, math_olympiad, science_club]

/-- Embeds `initialize_database` of `app.py`: insert the hardcoded activities if
`count_documents({}) == 0`, otherwise leave the collection as it is. -/
def initialize_database (store : Store) : Store :=
  if store.length = 0 then store ++ initial_activities else store

/-- Stores reachable from the seeded initial state by successful signup and
unregister calls. -/
inductive Reachable : Store → Prop where
  | seed : Reachable (initialize_database [])
  | signup (s : Store) (n e m : String) (s' : Store) :
      Reachable s → signup_for_activity s n e = (.ok m, s') → Reachable s'
  | unregister (s : Store) (n e m : String) (s' : Store) :
      Reachable s → unregister_from_activity s n e = (.ok m, s') → Reachable s'

/-- The function `find_one` returns `none` exactly when no document has the given `_id`. -/
theorem find_one_eq_none_iff (s : Store) (n : String) :
    find_one s n = none ↔ ∀ a ∈ s, a.name ≠ n := by
  simp [find_one, List.find?_eq_none]


/-- Computing `find_one` on a cons whose head matches. -/
theorem find_one_cons_pos {a : Activity} {n : String} (rest : Store)
    (h : a.name = n) : find_one (a :: rest) n = some a := by
  simp [find_one, List.find?_cons_of_pos, h]


/-- Computing `find_one` on a cons whose head does not match. -/
theorem find_one_cons_neg {a : Activity} {n : String} (rest : Store)
    (h : ¬ a.name = n) : find_one (a :: rest) n = find_one rest n := by
  simp [find_one, List.find?_cons_of_neg, h]


/-- Every document of the updated store is an old document or the image of
the matched document, since `find_one` and `update_one` agree on which
document is first to match. -/
theorem mem_update_one_of_find_one {s : Store} {n : String} {a₀ : Activity}
    (f : Activity → Activity) (hf : find_one s n = some a₀) :
    ∀ b ∈ update_one s n f, b ∈ s ∨ b = f a₀ := by
  induction s with
  | nil => simp [find_one] at hf
  | cons a rest ih =>
    by_cases h : a.name = n
    · rw [find_one_cons_pos rest h] at hf
      injection hf with hf
      intro b hb
      simp only [update_one, h, beq_self_eq_true, if_pos] at hb
      rcases List.mem_cons.mp hb with hb | hb
      · right; rw [hb, hf]
      · left; exact List.mem_cons_of_mem _ hb
    · rw [find_one_cons_neg rest h] at hf
      intro b hb
      have hbeq : (a.name == n) = false := by simp [h]
      simp only [update_one, hbeq, Bool.false_eq_true, if_neg, not_false_iff] at hb
      rcases List.mem_cons.mp hb with hb | hb
      · left; rw [hb]; exact List.mem_cons_self _ _
      · rcases ih hf b hb with h' | h'
        · left; exact List.mem_cons_of_mem _ h'
        · right; exact h'


/-- After `update_one`, looking the key up again returns the updated
document, provided the update keeps the `_id`. -/
theorem find_one_update_one {s : Store} {n : String} {a₀ : Activity}
    (f : Activity → Activity) (hf : find_one s n = some a₀)
    (hname : (f a₀).name = a₀.name) :
    find_one (update_one s n f) n = some (f a₀) := by
  induction s with
  | nil => simp [find_one] at hf
  | cons a rest ih =>
    by_cases h : a.name = n
    · rw [find_one_cons_pos rest h] at hf
      injection hf with hf
      subst hf
      simp only [update_one, h, beq_self_eq_true, if_pos]
      exact find_one_cons_pos rest (by rw [hname, h])
    · rw [find_one_cons_neg rest h] at hf
      have hbeq : (a.name == n) = false := by simp [h]
      simp only [update_one, hbeq, Bool.false_eq_true, if_neg, not_false_iff]
      rw [find_one_cons_neg _ h]
      exact ih hf


/-- The function `update_one` only evaluates the update on the matched document. -/
theorem update_one_congr {s : Store} {n : String} {a₀ : Activity}
    (f g : Activity → Activity) (hf : find_one s n = some a₀)
    (h : f a₀ = g a₀) : update_one s n f = update_one s n g := by
  induction s with
  | nil => simp [find_one] at hf
  | cons a rest ih =>
    by_cases hn : a.name = n
    · rw [find_one_cons_pos rest hn] at hf
      injection hf with hf
      subst hf
      simp only [update_one, hn, beq_self_eq_true, if_pos, h]
    · rw [find_one_cons_neg rest hn] at hf
      have hbeq : (a.name == n) = false := by simp [hn]
      simp only [update_one, hbeq, Bool.false_eq_true, if_neg, not_false_iff]
      rw [ih hf]


/-- The function `update_one` relates the old and new stores pointwise: unmatched
documents are untouched and the matched one has a matching `_id`. -/
theorem update_one_forall₂ (R : Activity → Activity → Prop) (s : Store)
    (n : String) (f : Activity → Activity)
    (hrefl : ∀ a, R a a) (hstep : ∀ a, a.name = n → R a (f a)) :
    List.Forall₂ R s (update_one s n f) := by
  induction s with
  | nil => exact List.Forall₂.nil
  | cons a rest ih =>
    by_cases h : a.name = n
    · simp only [update_one, h, beq_self_eq_true, if_pos]
      exact List.Forall₂.cons (hstep a h) ((List.forall₂_same).mpr (fun x _ => hrefl x))
    · have hbeq : (a.name == n) = false := by simp [h]
      simp only [update_one, hbeq, Bool.false_eq_true, if_neg, not_false_iff]
      exact List.Forall₂.cons (hrefl a) ih


/-- Inversion for a successful signup: the activity was found, the email was
not yet registered, the activity was below capacity, and the store was
updated with `$addToSet`. -/
theorem signup_ok_elim {s : Store} {n e m : String} {s' : Store}
    (h : signup_for_activity s n e = (.ok m, s')) :
    ∃ a₀, find_one s n = some a₀ ∧ e ∉ a₀.participants ∧
      a₀.participants.length < a₀.max_participants ∧
      s' = update_one s n
        (fun a => { a with participants := addToSet a.participants e }) := by
  unfold signup_for_activity at h
  cases hf : find_one s n with
  | none => rw [hf] at h; simp at h
  | some a₀ =>
    rw [hf] at h
    by_cases h1 : e ∈ a₀.participants
    · simp [h1] at h
    · by_cases h2 : a₀.participants.length ≥ a₀.max_participants
      · simp [h1, h2] at h
      · simp only [h1, h2, if_neg, if_pos, not_false_iff, Prod.mk.injEq] at h
        exact ⟨a₀, rfl, h1, Nat.lt_of_not_le h2, h.2.symm⟩


/-- Inversion for a successful unregister: the activity was found, the email
was registered, and the store was updated with `$pull`. -/
theorem unregister_ok_elim {s : Store} {n e m : String} {s' : Store}
    (h : unregister_from_activity s n e = (.ok m, s')) :
    ∃ a₀, find_one s n = some a₀ ∧ e ∈ a₀.participants ∧
      s' = update_one s n
        (fun a => { a with participants := pull a.participants e }) := by
  unfold unregister_from_activity at h
  cases hf : find_one s n with
  | none => rw [hf] at h; simp at h
  | some a₀ =>
    rw [hf] at h
    by_cases h1 : e ∈ a₀.participants
    · simp only [h1, not_true, if_neg, not_false_iff, Prod.mk.injEq] at h
      exact ⟨a₀, rfl, h1, h.2.symm⟩
    · simp [h1] at h


/-- Claim C4: signing up an email already in `participants(A)` returns the
HTTP 400 "Already signed up for this activity" error and leaves the entire
store unchanged. -/
theorem signup_already_registered_unchanged (s : Store) (n e : String) (a : Activity)
    (hf : find_one s n = some a) (he : e ∈ a.participants) :
    signup_for_activity s n e =
      (.httpError 400 "Already signed up for this activity", s) := by
  simp [signup_for_activity, hf, he]

theorem signup_already_registered_unchanged_witness :
    signup_for_activity (initialize_database []) "Chess Club" "michael@mergington.edu"
      = (.httpError 400 "Already signed up for this activity", initialize_database []) :=
  signup_already_registered_unchanged _ _ _ chess_club (by decide) (by decide)


/-- Claim C5: signing up a not-yet-registered email on an activity whose
participants list is at capacity returns the HTTP 400 "Activity is full"
error and leaves the store, in particular `participants(A)`, unchanged. -/
theorem signup_full_unchanged (s : Store) (n e : String) (a : Activity)
    (hf : find_one s n = some a) (he : e ∉ a.participants)
    (hcap : a.participants.length = a.max_participants) :
    signup_for_activity s n e = (.httpError 400 "Activity is full", s) := by
  have hge : a.participants.length ≥ a.max_participants := Nat.le_of_eq hcap.symm
  simp [signup_for_activity, hf, he, hge]

theorem signup_full_unchanged_witness :
    signup_for_activity [⟨"Knitting Club", "K", "Mondays", 2, ["a@m.edu", "b@m.edu"]⟩]
      "Knitting Club" "c@m.edu"
      = (.httpError 400 "Activity is full",
         [⟨"Knitting Club", "K", "Mondays", 2, ["a@m.edu", "b@m.edu"]⟩]) :=
  signup_full_unchanged _ _ _ ⟨"Knitting Club", "K", "Mondays", 2, ["a@m.edu", "b@m.edu"]⟩
    (by decide) (by decide) (by decide)


/-- Claim C9: when the email is already registered and the activity is also
at or above capacity, signup fails with the "Already signed up for this
activity" error, not the "Activity is full" error: the already-registered
check takes precedence over the capacity check. -/
theorem signup_already_registered_precedence (s : Store) (n e : String) (a : Activity)
    (hf : find_one s n = some a) (he : e ∈ a.participants)
    (hcap : a.participants.length ≥ a.max_participants) :
    signup_for_activity s n e =
      (.httpError 400 "Already signed up for this activity", s) := by
  simp [signup_for_activity, hf, he]

theorem signup_already_registered_precedence_witness :
    signup_for_activity [⟨"Knitting Club", "K", "Mondays", 2, ["a@m.edu", "b@m.edu"]⟩]
      "Knitting Club" "a@m.edu"
      = (.httpError 400 "Already signed up for this activity",
         [⟨"Knitting Club", "K", "Mondays", 2, ["a@m.edu", "b@m.edu"]⟩]) :=
  signup_already_registered_precedence _ _ _
    ⟨"Knitting Club", "K", "Mondays", 2, ["a@m.edu", "b@m.edu"]⟩
    (by decide) (by decide) (by decide)


/-- Claim C2: signup returns 404 "Activity not found" when no activity has
the given name; 400 "Already signed up for this activity" when the email is
already registered; 400 "Activity is full" when the participants list is at
capacity; and otherwise succeeds (HTTP 200) with the confirmation message,
inserting the email into the activity's participants. -/
theorem signup_case_analysis (s : Store) (n e : String) :
    ((∀ a ∈ s, a.name ≠ n) →
      signup_for_activity s n e = (.httpError 404 "Activity not found", s))
    ∧ (∀ a, find_one s n = some a → e ∈ a.participants →
      signup_for_activity s n e =
        (.httpError 400 "Already signed up for this activity", s))
    ∧ (∀ a, find_one s n = some a → e ∉ a.participants →
      a.participants.length ≥ a.max_participants →
      signup_for_activity s n e = (.httpError 400 "Activity is full", s))
    ∧ (∀ a, find_one s n = some a → e ∉ a.participants →
      a.participants.length < a.max_participants →
      ∃ s', signup_for_activity s n e = (.ok s!"Signed up {e} for {n}", s')
        ∧ find_one s' n = some { a with participants := a.participants ++ [e] }) := by
  refine ⟨?_, ?_, ?_, ?_⟩
  · intro hnone
    have hf : find_one s n = none := (find_one_eq_none_iff s n).mpr hnone
    simp [signup_for_activity, hf]
  · intro a hf he
    simp [signup_for_activity, hf, he]
  · intro a hf he hge
    simp [signup_for_activity, hf, he, hge]
  · intro a hf he hlt
    have hge : ¬ a.participants.length ≥ a.max_participants := Nat.not_le_of_lt hlt
    refine ⟨update_one s n
      (fun b => { b with participants := addToSet b.participants e }), ?_, ?_⟩
    · simp [signup_for_activity, hf, he, hge]
    · have h2 := find_one_update_one
        (fun b => { b with participants := addToSet b.participants e }) hf rfl
      rw [h2]
      simp [addToSet, he]

theorem signup_case_analysis_witness :
    signup_for_activity [] "Chess Club" "x@mergington.edu"
      = (.httpError 404 "Activity not found", []) :=
  (signup_case_analysis [] "Chess Club" "x@mergington.edu").1 (by simp)


/-- Claim C3: unregister returns 404 "Activity not found" when no activity
has the given name; 400 "Student not registered for this activity" when the
email is not registered; and otherwise succeeds (HTTP 200) with the
confirmation message, removing the email from the activity's participants. -/
theorem unregister_case_analysis (s : Store) (n e : String) :
    ((∀ a ∈ s, a.name ≠ n) →
      unregister_from_activity s n e = (.httpError 404 "Activity not found", s))
    ∧ (∀ a, find_one s n = some a → e ∉ a.participants →
      unregister_from_activity s n e =
        (.httpError 400 "Student not registered for this activity", s))
    ∧ (∀ a, find_one s n = some a → e ∈ a.participants →
      ∃ s' a', unregister_from_activity s n e =
          (.ok s!"Unregistered {e} from {n}", s')
        ∧ find_one s' n = some a'
        ∧ a'.participants = a.participants.filter (fun x => x != e)
        ∧ e ∉ a'.participants) := by
  refine ⟨?_, ?_, ?_⟩
  · intro hnone
    have hf : find_one s n = none := (find_one_eq_none_iff s n).mpr hnone
    simp [unregister_from_activity, hf]
  · intro a hf he
    simp [unregister_from_activity, hf, he]
  · intro a hf he
    refine ⟨update_one s n
      (fun b => { b with participants := pull b.participants e }),
      { a with participants := pull a.participants e }, ?_, ?_, ?_, ?_⟩
    · simp [unregister_from_activity, hf, he]
    · exact find_one_update_one
        (fun b => { b with participants := pull b.participants e }) hf rfl
    · simp [pull]
    · simp [pull, List.mem_filter]

theorem unregister_case_analysis_witness :
    unregister_from_activity [] "Chess Club" "x@mergington.edu"
      = (.httpError 404 "Activity not found", []) :=
  (unregister_case_analysis [] "Chess Club" "x@mergington.edu").1 (by simp)


/-- Claim C6: unregistering an email that is not in `participants(A)`
returns HTTP 400 "Student not registered for this activity" and leaves the
store unchanged; consequently unregistering the same email twice in a row
succeeds the first time and fails the second time with that error. -/
theorem unregister_not_registered_cases :
    (∀ (s : Store) (n e : String) (a : Activity),
      find_one s n = some a → e ∉ a.participants →
      unregister_from_activity s n e =
        (.httpError 400 "Student not registered for this activity", s))
    ∧ (∀ (s : Store) (n e m : String) (s' : Store),
      unregister_from_activity s n e = (.ok m, s') →
      unregister_from_activity s' n e =
        (.httpError 400 "Student not registered for this activity", s')) := by
  constructor
  · intro s n e a hf he
    simp [unregister_from_activity, hf, he]
  · intro s n e m s' h
    obtain ⟨a₀, hf, hmem, hs'⟩ := unregister_ok_elim h
    subst hs'
    have h2 := find_one_update_one
      (fun b => { b with participants := pull b.participants e }) hf rfl
    have h3 : e ∉ pull a₀.participants e := by simp [pull, List.mem_filter]
    simp [unregister_from_activity, h2, h3]

theorem unregister_not_registered_cases_witness :
    unregister_from_activity
      (unregister_from_activity (initialize_database [])
        "Chess Club" "michael@mergington.edu").2
      "Chess Club" "michael@mergington.edu"
    = (.httpError 400 "Student not registered for this activity",
       (unregister_from_activity (initialize_database [])
        "Chess Club" "michael@mergington.edu").2) :=
  unregister_not_registered_cases.2 (initialize_database [])
    "Chess Club" "michael@mergington.edu"
    "Unregistered michael@mergington.edu from Chess Club"
    (unregister_from_activity (initialize_database [])
      "Chess Club" "michael@mergington.edu").2
    (by decide)


/-- Claim C7: seeding is a no-op on a non-empty store, seeds the empty store
with exactly the 9 hardcoded activities, and immediately afterwards
`GET /activities` returns exactly those 9 activities with their literal
initial data, in particular "Chess Club" with its two seeded participants
and `max_participants` 12. -/
theorem seed_behavior :
    (∀ s : Store, s ≠ [] → initialize_database s = s)
    ∧ initialize_database [] = initial_activities
    ∧ get_activities (initialize_database []) =
      [("Chess Club", ⟨"Learn strategies and compete in chess tournaments",
        "Fridays, 3:30 PM - 5:00 PM", 12,
        ["michael@mergington.edu", "daniel@mergington.edu"]⟩),
       ("Programming Class", ⟨"Learn programming fundamentals and build software projects",
        "Tuesdays and Thursdays, 3:30 PM - 4:30 PM", 20,
        ["emma@mergington.edu", "sophia@mergington.edu"]⟩),
       ("Gym Class", ⟨"Physical education and sports activities",
        "Mondays, Wednesdays, Fridays, 2:00 PM - 3:00 PM", 30,
        ["john@mergington.edu", "olivia@mergington.edu"]⟩),
       ("Soccer Team", ⟨"Join the school soccer team and compete in local leagues",
        "Tuesdays and Thursdays, 4:00 PM - 5:30 PM", 18,
        ["lucas@mergington.edu", "mia@mergington.edu"]⟩),
       ("Basketball Club", ⟨"Practice basketball skills and play friendly matches",
        "Wednesdays, 3:30 PM - 5:00 PM", 15,
        ["liam@mergington.edu", "ava@mergington.edu"]⟩),
       ("Art Club", ⟨"Explore painting, drawing, and other visual arts",
        "Mondays, 3:30 PM - 5:00 PM", 16,
        ["noah@mergington.edu", "isabella@mergington.edu"]⟩),
       ("Drama Society", ⟨"Participate in acting, stage production, and school plays",
        "Thursdays, 4:00 PM - 5:30 PM", 20,
        ["ethan@mergington.edu", "charlotte@mergington.edu"]⟩),
       ("Math Olympiad", ⟨"Prepare for math competitions and solve challenging problems",
        "Fridays, 2:00 PM - 3:30 PM", 10,
        ["amelia@mergington.edu", "benjamin@mergington.edu"]⟩),
       ("Science Club", ⟨"Conduct experiments and explore scientific concepts",
        "Wednesdays, 4:00 PM - 5:00 PM", 14,
        ["elijah@mergington.edu", "harper@mergington.edu"]⟩)] := by
  refine ⟨?_, by decide, by decide⟩
  intro s hs
  have h : s.length ≠ 0 := fun h => hs (List.length_eq_zero.mp h)
  simp [initialize_database, h]

theorem seed_behavior_witness : initialize_database [chess_club] = [chess_club] :=
  seed_behavior.1 [chess_club] (by decide)


/-- Claim C10: a successful signup or unregister for activity `n` modifies
only the participants field of the activity named `n`: every store entry
keeps its name, description, schedule and max_participants, entries whose
name differs from `n` are completely unchanged, and no activity is created
or deleted. -/
theorem success_frame (s : Store) (n e m : String) (s' : Store)
    (h : signup_for_activity s n e = (.ok m, s')
       ∨ unregister_from_activity s n e = (.ok m, s')) :
    s'.length = s.length ∧
    List.Forall₂ (fun a a' => a'.name = a.name ∧ a'.description = a.description ∧
      a'.schedule = a.schedule ∧ a'.max_participants = a.max_participants ∧
      (a.name ≠ n → a' = a)) s s' := by
  have key : ∀ f : Activity → Activity,
      (∀ a, f a = { a with participants := (f a).participants }) →
      s' = update_one s n f →
      s'.length = s.length ∧
      List.Forall₂ (fun a a' => a'.name = a.name ∧ a'.description = a.description ∧
        a'.schedule = a.schedule ∧ a'.max_participants = a.max_participants ∧
        (a.name ≠ n → a' = a)) s s' := by
    intro f hfields hs'
    subst hs'
    have h2 := update_one_forall₂
      (fun a a' => a'.name = a.name ∧ a'.description = a.description ∧
        a'.schedule = a.schedule ∧ a'.max_participants = a.max_participants ∧
        (a.name ≠ n → a' = a)) s n f
      (fun a => ⟨rfl, rfl, rfl, rfl, fun _ => rfl⟩)
      (fun a ha => by
        rw [hfields a]
        exact ⟨rfl, rfl, rfl, rfl, fun hne => absurd ha hne⟩)
    exact ⟨h2.length_eq.symm, h2⟩
  rcases h with h | h
  · obtain ⟨a₀, hf, hmem, hlt, hs'⟩ := signup_ok_elim h
    exact key _ (fun a => rfl) hs'
  · obtain ⟨a₀, hf, hmem, hs'⟩ := unregister_ok_elim h
    exact key _ (fun a => rfl) hs'

theorem success_frame_witness :
    (signup_for_activity (initialize_database [])
      "Chess Club" "newstudent@mergington.edu").2.length
      = (initialize_database []).length ∧
    List.Forall₂ (fun a a' => a'.name = a.name ∧ a'.description = a.description ∧
      a'.schedule = a.schedule ∧ a'.max_participants = a.max_participants ∧
      (a.name ≠ "Chess Club" → a' = a))
      (initialize_database [])
      (signup_for_activity (initialize_database [])
        "Chess Club" "newstudent@mergington.edu").2 :=
  success_frame (initialize_database []) "Chess Club" "newstudent@mergington.edu"
    "Signed up newstudent@mergington.edu for Chess Club"
    (signup_for_activity (initialize_database [])
      "Chess Club" "newstudent@mergington.edu").2
    (Or.inl (by decide))


/-- Claim C1: in every store reachable from the seeded initial state by
successful signup and unregister operations, every activity has at most
`max_participants` participants and no duplicate email among them. -/
theorem reachable_invariant (s : Store) (h : Reachable s) :
    ∀ a ∈ s, a.participants.length ≤ a.max_participants ∧ a.participants.Nodup := by
  induction h with
  | seed => decide
  | signup s n e m s' hr hok ih =>
    obtain ⟨a₀, hf, hmem, hlt, hs'⟩ := signup_ok_elim hok
    subst hs'
    intro b hb
    rcases mem_update_one_of_find_one _ hf b hb with hb' | hb'
    · exact ih b hb'
    · subst hb'
      have ha₀ := ih a₀ (List.mem_of_find?_eq_some hf)
      refine ⟨?_, ?_⟩
      · simp only [addToSet, hmem, if_neg, not_false_iff, List.length_append,
          List.length_singleton]
        omega
      · simp only [addToSet, hmem, if_neg, not_false_iff]
        rw [List.nodup_append]
        exact ⟨ha₀.2, List.nodup_singleton e,
          fun x hx hx' => hmem ((List.mem_singleton.mp hx') ▸ hx)⟩
  | unregister s n e m s' hr hok ih =>
    obtain ⟨a₀, hf, hmem, hs'⟩ := unregister_ok_elim hok
    subst hs'
    intro b hb
    rcases mem_update_one_of_find_one _ hf b hb with hb' | hb'
    · exact ih b hb'
    · subst hb'
      have ha₀ := ih a₀ (List.mem_of_find?_eq_some hf)
      refine ⟨?_, ?_⟩
      · exact le_trans (List.length_filter_le _ _) ha₀.1
      · exact ha₀.2.filter _

theorem reachable_invariant_witness :
    chess_club.participants.length ≤ chess_club.max_participants ∧
      chess_club.participants.Nodup :=
  reachable_invariant (initialize_database []) Reachable.seed chess_club (by decide)


/-- A dictionary entry after `d[k] = v` is the new entry or an old one. -/
theorem mem_dictInsert {d : List (String × ActivityData)} {k : String}
    {v : ActivityData} : ∀ p ∈ dictInsert d k v, p = (k, v) ∨ p ∈ d := by
  induction d with
  | nil =>
    intro p hp
    simp [dictInsert] at hp
    left; exact hp
  | cons q rest ih =>
    obtain ⟨k', v'⟩ := q
    intro p hp
    by_cases h : k' == k
    · simp only [dictInsert, h, if_pos] at hp
      rcases List.mem_cons.mp hp with hp | hp
      · left; exact hp
      · right; exact List.mem_cons_of_mem _ hp
    · simp only [dictInsert, h, Bool.false_eq_true, if_neg, not_false_iff] at hp
      rcases List.mem_cons.mp hp with hp | hp
      · right; rw [hp]; exact List.mem_cons_self _ _
      · rcases ih p hp with h' | h'
        · left; exact h'
        · right; exact List.mem_cons_of_mem _ h'


/-- Assignment `d[k] = v` preserves the presence of every key. -/
theorem key_mem_dictInsert {d : List (String × ActivityData)} {k0 : String}
    (k : String) (v : ActivityData) (hk : ∃ p ∈ d, p.1 = k0) :
    ∃ p ∈ dictInsert d k v, p.1 = k0 := by
  induction d with
  | nil => simp at hk
  | cons q rest ih =>
    obtain ⟨k', v'⟩ := q
    obtain ⟨p, hp, hpk⟩ := hk
    by_cases h : k' == k
    · simp only [dictInsert, h, if_pos]
      rcases List.mem_cons.mp hp with hp | hp
      · refine ⟨(k, v), List.mem_cons_self _ _, ?_⟩
        have : k' = k := by simpa using h
        rw [hp] at hpk
        simp only []
        rw [← this, ← hpk]
      · exact ⟨p, List.mem_cons_of_mem _ hp, hpk⟩
    · simp only [dictInsert, h, Bool.false_eq_true, if_neg, not_false_iff]
      rcases List.mem_cons.mp hp with hp | hp
      · exact ⟨(k', v'), List.mem_cons_self _ _, by rw [hp] at hpk; exact hpk⟩
      · obtain ⟨q', hq', hq'k⟩ := ih ⟨p, hp, hpk⟩
        exact ⟨q', List.mem_cons_of_mem _ hq', hq'k⟩


/-- After `d[k] = v` the key `k` is present. -/
theorem self_key_mem_dictInsert (d : List (String × ActivityData)) (k : String)
    (v : ActivityData) : ∃ p ∈ dictInsert d k v, p.1 = k := by
  induction d with
  | nil => exact ⟨(k, v), by simp [dictInsert]⟩
  | cons q rest ih =>
    obtain ⟨k', v'⟩ := q
    by_cases h : k' == k
    · simp only [dictInsert, h, if_pos]
      exact ⟨(k, v), List.mem_cons_self _ _, rfl⟩
    · simp only [dictInsert, h, Bool.false_eq_true, if_neg, not_false_iff]
      obtain ⟨p, hp, hpk⟩ := ih
      exact ⟨p, List.mem_cons_of_mem _ hp, hpk⟩


/-- Every entry of the dictionary built by `get_activities` comes from the
accumulator or from some document of the store. -/
theorem foldl_mem (s : Store) :
    ∀ (d : List (String × ActivityData)),
    ∀ p ∈ s.foldl (fun d a => dictInsert d a.name (activityData a)) d,
      p ∈ d ∨ ∃ a ∈ s, p = (a.name, activityData a) := by
  induction s with
  | nil =>
    intro d p hp
    left; exact hp
  | cons a rest ih =>
    intro d p hp
    simp only [List.foldl_cons] at hp
    rcases ih _ p hp with hd | ⟨b, hb, hpb⟩
    · rcases mem_dictInsert p hd with h | h
      · right; exact ⟨a, List.mem_cons_self _ _, h⟩
      · left; exact h
    · right; exact ⟨b, List.mem_cons_of_mem _ hb, hpb⟩


/-- Keys of the accumulator survive the whole `get_activities` fold. -/
theorem foldl_key_persists (s : Store) :
    ∀ (d : List (String × ActivityData)) (k0 : String), (∃ p ∈ d, p.1 = k0) →
    ∃ p ∈ s.foldl (fun d a => dictInsert d a.name (activityData a)) d, p.1 = k0 := by
  induction s with
  | nil => intro d k0 hk; exact hk
  | cons a rest ih =>
    intro d k0 hk
    simp only [List.foldl_cons]
    exact ih _ k0 (key_mem_dictInsert _ _ hk)

/-- Every document of the store contributes its name as a key of the
dictionary built by `get_activities`. -/
theorem foldl_key (s : Store) :
    ∀ (d : List (String × ActivityData)) (a : Activity), a ∈ s →
    ∃ p ∈ s.foldl (fun d a => dictInsert d a.name (activityData a)) d, p.1 = a.name := by
  induction s with
  | nil => intro d a ha; simp at ha
  | cons b rest ih =>
    intro d a ha
    simp only [List.foldl_cons]
    rcases List.mem_cons.mp ha with ha | ha
    · subst ha
      exact foldl_key_persists rest _ a.name (self_key_mem_dictInsert d a.name _)
    · exact ih _ a ha


/-- Claim C8: `GET /activities` returns an object keyed by activity name in
which each value carries exactly the description, schedule,
max_participants and participants of a stored activity — the stored
representation minus the name key — and every stored activity's name occurs
as a key. -/
theorem get_activities_shape (s : Store) :
    (∀ p ∈ get_activities s, ∃ a ∈ s, p.1 = a.name ∧
      p.2.description = a.description ∧ p.2.schedule = a.schedule ∧
      p.2.max_participants = a.max_participants ∧ p.2.participants = a.participants)
    ∧ (∀ a ∈ s, ∃ p ∈ get_activities s, p.1 = a.name) := by
  constructor
  · intro p hp
    rcases foldl_mem s [] p hp with h | ⟨a, ha, hpa⟩
    · simp at h
    · subst hpa
      exact ⟨a, ha, rfl, rfl, rfl, rfl, rfl⟩
  · intro a ha
    exact foldl_key s [] a ha

theorem get_activities_shape_witness :
    ∃ p ∈ get_activities initial_activities, p.1 = chess_club.name :=
  (get_activities_shape initial_activities).2 chess_club (by decide)
